import Mathlib

/-!
# Verification of the `aip` automatic-investment-plan core

A shallow embedding, in Lean 4, of the Go sources of the `aip` repository:

* `plan/plan.go` — the plan state machine (`state`, `stateFlush`, `stateInit`,
  `stateUpdate`, `New`, `Invest`, `Monitor`, `addOrder`, `addStatistics`);
* `plan/period.go` — period construction (`mustBetween`, `validateTime`,
  `NewDaily`, `NewWeekly`, `NewMonthly`);
* `huobi/huobi.go` — the signed exchange client (`floor`, `querystring`,
  `sign`, `req`'s retry loop, `SpotAccountID`, `Trade`'s parameter set).

Modelling conventions:

* Go `float64` values are modelled exactly over `ℚ`; the spec itself asks for
  the arithmetic identities only "within floating-point tolerance", and every
  claim under study is about the algebraic data flow, not about rounding of
  individual IEEE operations.  The one place where IEEE semantics matter — the
  unguarded division `FieldCashAmount / FieldAmount` in `addOrder`, which in Go
  produces `±Inf`/`NaN` for a zero divisor — is modelled by `divF : ℚ → ℚ →
  Option ℚ`, where `none` stands for the non-finite outcomes.
* Go `uint64`/`int` values are modelled as `ℕ` (no arithmetic in the claims
  overflows), wrapping 32-bit arithmetic inside SHA-256 is `ℕ` with explicit
  `% 2^32`.
* Effectful collaborator calls (HTTP price lookup, the sqlite layer, the
  exchange trade endpoint, `time.Now`) are passed in as explicit outcome
  parameters; in-place mutation of the Go `plan.state` struct is explicit
  state passing, and a Go method that can both mutate the receiver and return
  an error is modelled as returning `State × Option Err` (the state component
  is the in-memory state after the call, whether or not the call failed).
-/

namespace Aip

/-- Domain errors.  `other` injects arbitrary collaborator failures (sqlite
errors, transport errors wrapped by the huobi client, …). -/
inductive Err where
  | priceUnavailable : Err
  | symbolNotFound : Err
  | accountNotFound : Err
  | other : ℕ → Err
deriving DecidableEq, Repr

/-- `huobi.TradeType` (`huobi.go`): the four trade kinds, each carrying its wire
string. -/
inductive TradeType where
  | buyMarket
  | sellMarket
  | buyLimit
  | sellLimit
deriving DecidableEq, Repr

/-- The wire string of a trade kind, as in the Go constant block. -/
def TradeType.str : TradeType → String
  | .buyMarket => "buy-market"
  | .sellMarket => "sell-market"
  | .buyLimit => "buy-limit"
  | .sellLimit => "sell-limit"

/-- `huobi.OpenOrder` (`huobi.go`), restricted to the fields the plan reads.
`type` is the raw wire string, exactly as in the Go struct. -/
structure OpenOrder where
  id : ℕ
  symbol : String
  type : String
  fieldAmount : ℚ
  fieldCashAmount : ℚ
  createdAt : ℕ
deriving DecidableEq, Repr

/-- IEEE division as used in `plan.addOrder`: a zero divisor yields a
non-finite value (`NaN` for `0/0`, `±Inf` otherwise), modelled as `none`;
a nonzero divisor yields the exact quotient. -/
def divF (x y : ℚ) : Option ℚ :=
  if y = 0 then none else some (x / y)

/-- `db.Order` (`db` package), the persisted order record.  `price` is an
`Option ℚ` because the Go `float64` division that fills it can be non-finite. -/
structure OrderRec where
  id : ℕ
  symbol : String
  type : String
  price : Option ℚ
  baseAmount : ℚ
  quoteAmount : ℚ
  created : ℕ
deriving DecidableEq, Repr

/-- `db.Statistics` (`db` package), the persisted snapshot record. -/
structure StatisticsRec where
  symbol : String
  position : ℚ
  investment : ℚ
  price : ℚ
  equity : ℚ
  created : ℕ
deriving DecidableEq, Repr

/-- `plan.state` (`plan.go`): the in-memory running totals. -/
structure State where
  position : ℚ
  investment : ℚ
  price : ℚ
  equity : ℚ
  updated : ℕ
deriving DecidableEq, Repr

/-- The zero value of the Go `plan.state` struct, as allocated by `plan.New`. -/
def State.zero : State := ⟨0, 0, 0, 0, 0⟩

/-- `plan.addOrder` builds this `db.Order` record from the (already
normalized) fill before handing it to `db.AddOrder`:
price is `FieldCashAmount / FieldAmount` with no guard against a zero divisor,
and `created` is `CreatedAt / 1000` in truncating integer division. -/
def mkOrderRecord (o : OpenOrder) : OrderRec :=
  { id := o.id
    symbol := o.symbol
    type := o.type
    price := divF o.fieldCashAmount o.fieldAmount
    baseAmount := o.fieldAmount
    quoteAmount := o.fieldCashAmount
    created := o.createdAt / 1000 }

/-- `plan.addStatistics` builds this `db.Statistics` record from the current
state before handing it to `db.AddStatistics`. -/
def mkStatisticsRecord (symbol : String) (s : State) : StatisticsRec :=
  { symbol := symbol
    position := s.position
    investment := s.investment
    price := s.price
    equity := s.equity
    created := s.updated }

/-- `plan.stateFlush`: fetch the latest price (outcome passed in as
`priceRes`), then set `price`, `equity := price * position` and `updated`.
On a failed price lookup the state is untouched and the error surfaced. -/
def stateFlush (priceRes : Except Err ℚ) (now : ℕ) (s : State) :
    State × Option Err :=
  match priceRes with
  | .error e => (s, some e)
  | .ok price =>
      ({ s with price := price, equity := price * s.position, updated := now },
       none)

/-- `plan.stateInit`: load `(position, investment)` from `db.OrderSummary`
(outcome passed in as `summaryRes`), stamp `updated`, then flush.  A failed
summary query surfaces before any field is written. -/
def stateInit (summaryRes : Except Err (ℚ × ℚ)) (priceRes : Except Err ℚ)
    (now : ℕ) (s : State) : State × Option Err :=
  match summaryRes with
  | .error e => (s, some e)
  | .ok (position, investment) =>
      stateFlush priceRes now
        { s with position := position, investment := investment,
                 updated := now }

/-- `plan.stateUpdate`: fold the fill's signed deltas into
`position`/`investment`, stamp `updated`, then flush.  As in the Go code, the
deltas are applied before the flush, so a failed flush still leaves them
applied. -/
def stateUpdate (order : OpenOrder) (priceRes : Except Err ℚ) (now : ℕ)
    (s : State) : State × Option Err :=
  stateFlush priceRes now
    { s with position := s.position + order.fieldAmount,
             investment := s.investment + order.fieldCashAmount,
             updated := now }

/-- The `switch huobi.TradeType(order.Type)` block of `plan.Invest`: a fill
whose kind string is a sell kind has its filled amounts negated in place. -/
def normalizeFill (o : OpenOrder) : OpenOrder :=
  if o.type = TradeType.sellMarket.str ∨ o.type = TradeType.sellLimit.str then
    { o with fieldAmount := -o.fieldAmount,
             fieldCashAmount := -o.fieldCashAmount }
  else o

/-- `plan.Invest`: trade (outcome `tradeRes`), normalize a sell-side fill,
persist the order record (outcome function `addOrderRes`, given the record
that `plan.addOrder` builds), then `stateUpdate` (whose flush consumes
`priceRes`).  Every failure aborts the call at that point. -/
def Invest (tradeRes : Except Err OpenOrder)
    (addOrderRes : OrderRec → Option Err) (priceRes : Except Err ℚ)
    (now : ℕ) (s : State) : State × Option Err :=
  match tradeRes with
  | .error e => (s, some e)
  | .ok o =>
      let order := normalizeFill o
      match addOrderRes (mkOrderRecord order) with
      | some e => (s, some e)
      | none => stateUpdate order priceRes now s

/-- `plan.Monitor`: flush, then persist a statistics snapshot (outcome
function `addStatisticsRes`, given the record `plan.addStatistics` builds). -/
def Monitor (priceRes : Except Err ℚ)
    (addStatisticsRes : StatisticsRec → Option Err) (symbol : String)
    (now : ℕ) (s : State) : State × Option Err :=
  match stateFlush priceRes now s with
  | (s', some e) => (s', some e)
  | (s', none) =>
      match addStatisticsRes (mkStatisticsRecord symbol s') with
      | some e => (s', some e)
      | none => (s', none)

/-- The `plan.plan` value returned by `plan.New` (fields the claims read). -/
structure Plan where
  symbol : String
  amount : ℚ
  state : State
deriving DecidableEq, Repr

/-- `plan.New`: allocate a zero state, run `stateInit`; on any failure return
no plan, otherwise the plan holding the initialized state. -/
def New (symbol : String) (amount : ℚ) (summaryRes : Except Err (ℚ × ℚ))
    (priceRes : Except Err ℚ) (now : ℕ) : Except Err Plan :=
  match stateInit summaryRes priceRes now State.zero with
  | (_, some e) => .error e
  | (s, none) => .ok { symbol := symbol, amount := amount, state := s }

/-! ## `plan/period.go` — period construction

The Go fields are `uint8`, so inputs range over `[0, 255]`; they are modelled
as `ℕ` (every `uint8` value embeds, and `mustBetween`'s lower-bound test
`value < from` with `from = 0` is vacuous in both models). -/

/-- `plan.mustBetween`: reject a value outside `[from, to]`. -/
def mustBetween (value lo hi : ℕ) : Except String Unit :=
  if value < lo ∨ value > hi then
    .error "a valid value must between lo and hi (inclusive)"
  else .ok ()

/-- `plan.validateTime`: hour in `[0,23]`, minute and second in `[0,59]`,
checked in that order. -/
def validateTime (hour minute second : ℕ) : Except String Unit :=
  match mustBetween hour 0 23 with
  | .error e => .error e
  | .ok _ =>
    match mustBetween minute 0 59 with
    | .error e => .error e
    | .ok _ =>
      match mustBetween second 0 59 with
      | .error e => .error e
      | .ok _ => .ok ()

/-- The `datetime` component shared by the three periods. -/
structure Datetime where
  hour : ℕ
  minute : ℕ
  second : ℕ
deriving DecidableEq, Repr

/-- `plan.NewDaily`. -/
def NewDaily (hour minute second : ℕ) : Except String Datetime :=
  match validateTime hour minute second with
  | .error e => .error e
  | .ok _ => .ok ⟨hour, minute, second⟩

/-- `plan.NewWeekly` (the weekday is not validated by the source). -/
def NewWeekly (weekday hour minute second : ℕ) :
    Except String (ℕ × Datetime) :=
  match validateTime hour minute second with
  | .error e => .error e
  | .ok _ => .ok (weekday, ⟨hour, minute, second⟩)

/-- `plan.NewMonthly` (the day-of-month is not validated by the source). -/
def NewMonthly (day hour minute second : ℕ) :
    Except String (ℕ × Datetime) :=
  match validateTime hour minute second with
  | .error e => .error e
  | .ok _ => .ok (day, ⟨hour, minute, second⟩)

/-! ## `huobi.SpotAccountID` -/

/-- `huobi.Account`, restricted to the fields `SpotAccountID` reads. -/
structure Account where
  id : ℕ
  type : String
deriving DecidableEq, Repr

/-- The scan loop of `huobi.SpotAccountID`: `id` starts at `0`, is set to the
first account of type `"spot"`, and the loop breaks there. -/
def firstSpotId : List Account → ℕ
  | [] => 0
  | a :: rest => if a.type = "spot" then a.id else firstSpotId rest

/-- `huobi.SpotAccountID`: run the scan, then fail with `account not found`
exactly when the resulting `id` is still `0`. -/
def SpotAccountID (accounts : List Account) : Except Err ℕ :=
  let id := firstSpotId accounts
  if id = 0 then .error .accountNotFound else .ok id

/-! ## `huobi.req` — transport retry loop -/

/-- A transport error, as classified by the retry condition in `huobi.req`:
`err.(net.Error)` succeeding with `Timeout()` true, or the error text
containing `"connection reset by peer"`. -/
structure TransportErr where
  isNetError : Bool
  isTimeout : Bool
  msgConnReset : Bool
deriving DecidableEq, Repr

/-- The retry condition of `huobi.req`:
`(ok && err.Timeout()) || strings.Contains(err.Error(), "connection reset by peer")`. -/
def retryable (e : TransportErr) : Bool :=
  (e.isNetError && e.isTimeout) || e.msgConnReset

/-- The `goto t` retry loop of `huobi.req`.  `att n` is the outcome of the
`(n+1)`-st `client.Do` call; `retry` is the Go counter (0 on entry).  On
success the pair also records how many attempts were made — instrumentation
only, the loop's control flow is exactly the source's
`if retry++; retry < 3 { goto t }`. -/
def reqLoop {R : Type} (att : ℕ → Except TransportErr R) (retry : ℕ) :
    Except TransportErr (R × ℕ) :=
  match att retry with
  | .ok r => .ok (r, retry + 1)
  | .error e =>
      if retryable e ∧ retry + 1 < 3 then reqLoop att (retry + 1)
      else .error e
termination_by 3 - retry
decreasing_by omega

/-! ## `huobi.floor` — truncating decimal formatter

`floor(f, prec)` in Go computes `math.Floor(f * 10^prec) / 10^prec` and
renders it with `strconv.FormatFloat(_, 'f', -1, 64)` (shortest decimal).
Arithmetic is modelled exactly over `ℚ`; the shortest-`'f'` rendering of the
value `n / 10^prec` is its exact decimal expansion with trailing fractional
zeros stripped (and no decimal point when the fraction vanishes). -/

/-- The digit character of `d < 10`. -/
def digitChar (d : ℕ) : Char := Char.ofNat (48 + d)

/-- Decimal digit characters of a positive natural number, most significant
first; structural recursion on a fuel bound so that the kernel can evaluate. -/
def natCharsAux : ℕ → ℕ → List Char
  | 0, _ => []
  | fuel + 1, n =>
      if n = 0 then [] else natCharsAux fuel (n / 10) ++ [digitChar (n % 10)]

/-- Decimal digit characters of a natural number, most significant first. -/
def natChars (n : ℕ) : List Char :=
  if n = 0 then ['0'] else natCharsAux n n

/-- Strip trailing `'0'` characters. -/
def stripTrailingZeros (l : List Char) : List Char :=
  (l.reverse.dropWhile (· = '0')).reverse

/-- Character rendering of the value `n / 10^prec` in fixed-point decimal,
fractional trailing zeros stripped. -/
def formatFixedChars (n : ℤ) (prec : ℕ) : List Char :=
  let a := n.natAbs
  let sign : List Char := if n < 0 then ['-'] else []
  let intPart := natChars (a / 10 ^ prec)
  let frac := stripTrailingZeros
    (List.replicate (prec - (natChars (a % 10 ^ prec)).length) '0' ++
      natChars (a % 10 ^ prec))
  if frac = [] then sign ++ intPart else sign ++ intPart ++ '.' :: frac

/-- The rational value computed by `huobi.floor` before rendering:
`math.Floor(f * 10^prec) / 10^prec`. -/
def floorVal (f : ℚ) (prec : ℕ) : ℚ := (⌊f * 10 ^ prec⌋ : ℚ) / 10 ^ prec

/-- `huobi.floor`: truncate `f` to `prec` decimal places and render the
result as Go's `strconv.FormatFloat(_, 'f', -1, 64)` does. -/
def floor (f : ℚ) (prec : ℕ) : String :=
  String.mk (formatFixedChars ⌊f * 10 ^ prec⌋ prec)

/-! ## `huobi.Trade` — order parameter set

`Trade` resolves the `Symbol` (for precision) and the spot account id, then
builds the `params` map sent to `/v1/order/orders/place`.  The map is
modelled as an association list; only the keys present matter to the claims. -/

/-- `huobi.Symbol`, restricted to the fields `Trade` reads. -/
structure Symbol where
  symbol : String
  pricePrecision : ℕ
  amountPrecision : ℕ
deriving DecidableEq, Repr

/-- The `params` map built by `huobi.Trade`: `amount` is always floored at the
symbol's amount precision; `price` is added, floored at the symbol's price
precision, only for the two limit kinds. -/
def tradeParams (s : Symbol) (accountId : ℕ) (cmd : TradeType)
    (amount price : ℚ) : List (String × String) :=
  let base : List (String × String) :=
    [("account-id", toString accountId),
     ("source", "api"),
     ("symbol", s.symbol),
     ("amount", floor amount s.amountPrecision),
     ("type", cmd.str)]
  if cmd = .buyLimit ∨ cmd = .sellLimit then
    base ++ [("price", floor price s.pricePrecision)]
  else base

/-! ## Request signing: `huobi.querystring` and `huobi.sign`

Bytes are `ℕ` values below 256; 32-bit words are `ℕ` with explicit `% 2^32`.
`strBytes` is Go's `[]byte(s)` (UTF-8); `queryEscape` is Go's
`url.QueryEscape`; `sha256`/`hmacSha256`/`base64Encode` model
`crypto/sha256`, `crypto/hmac` and `encoding/base64.StdEncoding`. -/

/-- UTF-8 encoding of one character, as a list of byte values. -/
def utf8Bytes (c : Char) : List ℕ :=
  let n := c.toNat
  if n < 0x80 then [n]
  else if n < 0x800 then
    [0xC0 + n / 64, 0x80 + n % 64]
  else if n < 0x10000 then
    [0xE0 + n / 4096, 0x80 + n / 64 % 64, 0x80 + n % 64]
  else
    [0xF0 + n / 262144, 0x80 + n / 4096 % 64, 0x80 + n / 64 % 64,
     0x80 + n % 64]

/-- Go's `[]byte(s)`: the UTF-8 bytes of a string. -/
def strBytes (s : String) : List ℕ := (s.data.map utf8Bytes).flatten

/-- Uppercase hexadecimal digit character of `d < 16` (as in Go's
`url` escaping table `"0123456789ABCDEF"`). -/
def hexDigitChar (d : ℕ) : Char :=
  if d < 10 then Char.ofNat (48 + d) else Char.ofNat (55 + d)

/-- Characters Go's `url.QueryEscape` leaves unescaped: alphanumerics and
`-_.~`. -/
def queryUnreserved (c : Char) : Bool :=
  ('A' ≤ c && c ≤ 'Z') || ('a' ≤ c && c ≤ 'z') || ('0' ≤ c && c ≤ '9') ||
    c = '-' || c = '_' || c = '.' || c = '~'

/-- Go's `url.QueryEscape`: unreserved characters kept, space becomes `+`,
every other byte becomes `%XX` with uppercase hex. -/
def queryEscape (s : String) : String :=
  String.mk ((s.data.map fun c =>
    if queryUnreserved c then [c]
    else if c = ' ' then ['+']
    else ((utf8Bytes c).map fun b =>
      ['%', hexDigitChar (b / 16), hexDigitChar (b % 16)]).flatten).flatten)

/-- `huobi.querystring`: collect the map's keys, sort them
(`sort.Strings` is lexicographic byte order, which on UTF-8 strings agrees
with the codepoint order used by `≤` on `String`), escape each key and its
value, join with `&`.  The Go map is modelled as an association list with
distinct keys. -/
def querystring (ps : List (String × String)) : String :=
  let keys := (ps.map Prod.fst).insertionSort (· ≤ ·)
  String.intercalate "&"
    (keys.map fun k => queryEscape k ++ "=" ++ queryEscape ((ps.lookup k).getD ""))

/-- 32-bit truncation. -/
def m32 (n : ℕ) : ℕ := n % 2 ^ 32

/-- 32-bit right rotation. -/
def rotr32 (x n : ℕ) : ℕ := m32 (x / 2 ^ n + x * 2 ^ (32 - n))

/-- SHA-256 `Ch`. -/
def sha256Ch (x y z : ℕ) : ℕ := (x &&& y) ^^^ ((2 ^ 32 - 1 - x) &&& z)

/-- SHA-256 `Maj`. -/
def sha256Maj (x y z : ℕ) : ℕ := (x &&& y) ^^^ (x &&& z) ^^^ (y &&& z)

/-- SHA-256 `Σ₀`. -/
def sha256S0 (x : ℕ) : ℕ := rotr32 x 2 ^^^ rotr32 x 13 ^^^ rotr32 x 22

/-- SHA-256 `Σ₁`. -/
def sha256S1 (x : ℕ) : ℕ := rotr32 x 6 ^^^ rotr32 x 11 ^^^ rotr32 x 25

/-- SHA-256 `σ₀`. -/
def sha256s0 (x : ℕ) : ℕ := rotr32 x 7 ^^^ rotr32 x 18 ^^^ x / 2 ^ 3

/-- SHA-256 `σ₁`. -/
def sha256s1 (x : ℕ) : ℕ := rotr32 x 17 ^^^ rotr32 x 19 ^^^ x / 2 ^ 10

/-- The SHA-256 round constants (FIPS 180-4, written in decimal). -/
def sha256K : List ℕ :=
  [1116352408, 1899447441, 3049323471, 3921009573,
   961987163, 1508970993, 2453635748, 2870763221,
   3624381080, 310598401, 607225278, 1426881987,
   1925078388, 2162078206, 2614888103, 3248222580,
   3835390401, 4022224774, 264347078, 604807628,
   770255983, 1249150122, 1555081692, 1996064986,
   2554220882, 2821834349, 2952996808, 3210313671,
   3336571891, 3584528711, 113926993, 338241895,
   666307205, 773529912, 1294757372, 1396182291,
   1695183700, 1986661051, 2177026350, 2456956037,
   2730485921, 2820302411, 3259730800, 3345764771,
   3516065817, 3600352804, 4094571909, 275423344,
   430227734, 506948616, 659060556, 883997877,
   958139571, 1322822218, 1537002063, 1747873779,
   1955562222, 2024104815, 2227730452, 2361852424,
   2428436474, 2756734187, 3204031479, 3329325298]

/-- The SHA-256 initial hash value (FIPS 180-4, written in decimal). -/
def sha256H0 : List ℕ :=
  [1779033703, 3144134277, 1013904242, 2773480762,
   1359893119, 2600822924, 528734635, 1541459225]

/-- Big-endian 4-byte groups to 32-bit words. -/
def bytesToWords : List ℕ → List ℕ
  | a :: b :: c :: d :: rest =>
      (a * 2 ^ 24 + b * 2 ^ 16 + c * 2 ^ 8 + d) :: bytesToWords rest
  | _ => []

/-- Big-endian bytes of a 32-bit word. -/
def wordBytes (w : ℕ) : List ℕ :=
  [w / 2 ^ 24 % 256, w / 2 ^ 16 % 256, w / 2 ^ 8 % 256, w % 256]

/-- SHA-256 padding: `0x80`, zeros to 56 mod 64, then the 64-bit big-endian
bit length. -/
def sha256Pad (msg : List ℕ) : List ℕ :=
  let len := msg.length
  let zeros := (119 - len % 64) % 64
  msg ++ 0x80 :: List.replicate zeros 0 ++
    [len * 8 / 2 ^ 56 % 256, len * 8 / 2 ^ 48 % 256, len * 8 / 2 ^ 40 % 256,
     len * 8 / 2 ^ 32 % 256, len * 8 / 2 ^ 24 % 256, len * 8 / 2 ^ 16 % 256,
     len * 8 / 2 ^ 8 % 256, len * 8 % 256]

/-- Extend the 16 message words by one scheduled word. -/
def scheduleStep (ws : List ℕ) : List ℕ :=
  let n := ws.length
  let g := fun i => ws.getD i 0
  ws ++ [m32 (sha256s1 (g (n - 2)) + g (n - 7) + sha256s0 (g (n - 15)) +
    g (n - 16))]

/-- The full 64-word message schedule of one block. -/
def schedule (ws : List ℕ) : List ℕ :=
  (List.range 48).foldl (fun acc _ => scheduleStep acc) ws

/-- One SHA-256 round on the 8-word working state. -/
def sha256Round (st : List ℕ) (kw : ℕ) : List ℕ :=
  match st with
  | [a, b, c, d, e, f, g, h] =>
      let t1 := m32 (h + sha256S1 e + sha256Ch e f g + kw)
      let t2 := m32 (sha256S0 a + sha256Maj a b c)
      [m32 (t1 + t2), a, b, c, m32 (d + t1), e, f, g]
  | _ => st

/-- Compress one 64-byte block into the hash state. -/
def sha256Block (h : List ℕ) (block : List ℕ) : List ℕ :=
  let kws := List.zipWith (fun k w => m32 (k + w)) sha256K
    (schedule (bytesToWords block))
  let fin := kws.foldl sha256Round h
  List.zipWith (fun x y => m32 (x + y)) h fin

/-- Split into 64-byte chunks (structural recursion on a fuel bound so that
the kernel can evaluate; the fuel `l.length` always suffices). -/
def chunks64Aux : ℕ → List ℕ → List (List ℕ)
  | 0, _ => []
  | _, [] => []
  | fuel + 1, l => l.take 64 :: chunks64Aux fuel (l.drop 64)

/-- Split into 64-byte chunks. -/
def chunks64 (l : List ℕ) : List (List ℕ) := chunks64Aux l.length l

/-- SHA-256 of a byte list, as 32 bytes. -/
def sha256 (msg : List ℕ) : List ℕ :=
  ((chunks64 (sha256Pad msg)).foldl sha256Block sha256H0).map wordBytes |>.flatten

/-- HMAC-SHA256 (`crypto/hmac` with `sha256.New`): block size 64. -/
def hmacSha256 (key msg : List ℕ) : List ℕ :=
  let k0 := if 64 < key.length then sha256 key else key
  let k := k0 ++ List.replicate (64 - k0.length) 0
  sha256 ((k.map fun b => b ^^^ 0x5c) ++
    sha256 ((k.map fun b => b ^^^ 0x36) ++ msg))

/-- The standard Base64 alphabet. -/
def base64Alphabet : List Char :=
  "ABCDEFGHIJKLMNOPQRSTUVWXYZabcdefghijklmnopqrstuvwxyz0123456789+/".data

/-- `encoding/base64.StdEncoding.EncodeToString`. -/
def base64Encode : List ℕ → String
  | [] => ""
  | [a] =>
      String.mk [base64Alphabet.getD (a / 4) ' ',
        base64Alphabet.getD (a % 4 * 16) ' '] ++ "=="
  | [a, b] =>
      String.mk [base64Alphabet.getD (a / 4) ' ',
        base64Alphabet.getD (a % 4 * 16 + b / 16) ' ',
        base64Alphabet.getD (b % 16 * 4) ' '] ++ "="
  | a :: b :: c :: rest =>
      String.mk [base64Alphabet.getD (a / 4) ' ',
        base64Alphabet.getD (a % 4 * 16 + b / 16) ' ',
        base64Alphabet.getD (b % 16 * 4 + c / 64) ' ',
        base64Alphabet.getD (c % 64) ' '] ++ base64Encode rest

/-- `huobi.Client.sign`: Base64 of the HMAC-SHA256 of the content, keyed by
the client secret. -/
def sign (secret content : String) : String :=
  base64Encode (hmacSha256 (strBytes secret) (strBytes content))

/-- The content signed by `huobi.req`:
`METHOD\nHOST\nPATH\nCANONICAL_QUERY`. -/
def signPayload (method host path query : String) : String :=
  method ++ "\n" ++ host ++ "\n" ++ path ++ "\n" ++ query

/-! ## Theorems -/

/-- C1: after every successful `Invest` call and after every successful
`Monitor` call, the in-memory state satisfies `equity = price * position`,
where `price` and `position` are the values held in the state at that
moment. -/
theorem invest_monitor_equity_invariant
    (tradeRes : Except Err OpenOrder) (addOrderRes : OrderRec → Option Err)
    (priceRes : Except Err ℚ) (addStatisticsRes : StatisticsRec → Option Err)
    (symbol : String) (now : ℕ) (s : State) :
    ((Invest tradeRes addOrderRes priceRes now s).2 = none →
      (Invest tradeRes addOrderRes priceRes now s).1.equity =
        (Invest tradeRes addOrderRes priceRes now s).1.price *
          (Invest tradeRes addOrderRes priceRes now s).1.position) ∧
    ((Monitor priceRes addStatisticsRes symbol now s).2 = none →
      (Monitor priceRes addStatisticsRes symbol now s).1.equity =
        (Monitor priceRes addStatisticsRes symbol now s).1.price *
          (Monitor priceRes addStatisticsRes symbol now s).1.position) := by
  constructor
  · intro hok
    cases tradeRes with
    | error e => simp [Invest] at hok
    | ok o =>
      cases hao : addOrderRes (mkOrderRecord (normalizeFill o)) with
      | some e => simp [Invest, hao] at hok
      | none =>
        cases priceRes with
        | error e => simp [Invest, hao, stateUpdate, stateFlush] at hok
        | ok p => simp [Invest, hao, stateUpdate, stateFlush]
  · intro hok
    cases priceRes with
    | error e => simp [Monitor, stateFlush] at hok
    | ok p =>
      cases has : addStatisticsRes (mkStatisticsRecord symbol
          { s with price := p, equity := p * s.position, updated := now }) with
      | some e => simp [Monitor, stateFlush, has] at hok
      | none => simp [Monitor, stateFlush, has]

/-- C1 witness: a concrete successful `Invest` and a concrete successful
`Monitor` both leave `equity = price * position`. -/
theorem invest_monitor_equity_invariant_witness :
    ((Invest (.ok ⟨1, "btcusdt", "buy-limit", 1/2, 100, 2000⟩)
        (fun _ => none) (.ok 3) 7 State.zero).1.equity =
      (Invest (.ok ⟨1, "btcusdt", "buy-limit", 1/2, 100, 2000⟩)
        (fun _ => none) (.ok 3) 7 State.zero).1.price *
        (Invest (.ok ⟨1, "btcusdt", "buy-limit", 1/2, 100, 2000⟩)
          (fun _ => none) (.ok 3) 7 State.zero).1.position) ∧
    ((Monitor (.ok 3) (fun _ => none) "btcusdt" 7 State.zero).1.equity =
      (Monitor (.ok 3) (fun _ => none) "btcusdt" 7 State.zero).1.price *
        (Monitor (.ok 3) (fun _ => none) "btcusdt" 7 State.zero).1.position) :=
  ⟨(invest_monitor_equity_invariant (.ok ⟨1, "btcusdt", "buy-limit", 1/2, 100, 2000⟩)
      (fun _ => none) (.ok 3) (fun _ => none) "btcusdt" 7 State.zero).1 rfl,
   (invest_monitor_equity_invariant (.ok ⟨1, "btcusdt", "buy-limit", 1/2, 100, 2000⟩)
      (fun _ => none) (.ok 3) (fun _ => none) "btcusdt" 7 State.zero).2 rfl⟩

/-- C2: if persisting the order record fails, `Invest` surfaces that error
and leaves the in-memory state — in particular `position` and `investment` —
exactly as it was. -/
theorem invest_persist_failure_no_mutation
    (o : OpenOrder) (addOrderRes : OrderRec → Option Err)
    (priceRes : Except Err ℚ) (now : ℕ) (s : State) (e : Err)
    (h : addOrderRes (mkOrderRecord (normalizeFill o)) = some e) :
    Invest (.ok o) addOrderRes priceRes now s = (s, some e) := by
  simp [Invest, h]

/-- C2 witness: a concrete `Invest` whose order persistence fails returns the
untouched state together with the persistence error. -/
theorem invest_persist_failure_no_mutation_witness :
    Invest (.ok ⟨1, "btcusdt", "buy-limit", 1/2, 100, 2000⟩)
      (fun _ => some (.other 7)) (.ok 3) 9 State.zero =
      (State.zero, some (.other 7)) :=
  invest_persist_failure_no_mutation ⟨1, "btcusdt", "buy-limit", 1/2, 100, 2000⟩
    (fun _ => some (.other 7)) (.ok 3) 9 State.zero (.other 7) rfl

/-- C3: in `Invest`, a fill whose trade kind is a sell kind has its filled
base and quote amounts negated before being folded into state (position and
investment decrease by the filled amounts), while a fill of a buy kind has
its filled amounts added unchanged. -/
theorem invest_sell_fill_negated
    (o : OpenOrder) (addOrderRes : OrderRec → Option Err) (p : ℚ) (now : ℕ)
    (s : State) (hok : addOrderRes (mkOrderRecord (normalizeFill o)) = none) :
    ((o.type = "sell-market" ∨ o.type = "sell-limit") →
      (Invest (.ok o) addOrderRes (.ok p) now s).1.position =
          s.position - o.fieldAmount ∧
        (Invest (.ok o) addOrderRes (.ok p) now s).1.investment =
          s.investment - o.fieldCashAmount) ∧
    ((o.type = "buy-market" ∨ o.type = "buy-limit") →
      (Invest (.ok o) addOrderRes (.ok p) now s).1.position =
          s.position + o.fieldAmount ∧
        (Invest (.ok o) addOrderRes (.ok p) now s).1.investment =
          s.investment + o.fieldCashAmount) := by
  constructor
  · intro hsell
    have hn : normalizeFill o =
        { o with fieldAmount := -o.fieldAmount,
                 fieldCashAmount := -o.fieldCashAmount } := by
      simp [normalizeFill, TradeType.str]
      rcases hsell with h | h <;> simp [h]
    rw [Invest] at *
    simp [hn] at hok ⊢
    simp [hok, stateUpdate, stateFlush]
    constructor <;> ring_nf
  · intro hbuy
    have hn : normalizeFill o = o := by
      rcases hbuy with h | h <;> simp [normalizeFill, TradeType.str, h]
    rw [Invest] at *
    simp [hn] at hok ⊢
    simp [hok, stateUpdate, stateFlush]

/-- C3 witness: a sell-limit fill with filled base amount `0.5` and filled
quote amount `100` decreases position by `0.5` and investment by `100`. -/
theorem invest_sell_fill_negated_witness :
    (Invest (.ok ⟨1, "btcusdt", "sell-limit", 1/2, 100, 2000⟩)
        (fun _ => none) (.ok 3) 9 State.zero).1.position =
      State.zero.position - 1/2 ∧
    (Invest (.ok ⟨1, "btcusdt", "sell-limit", 1/2, 100, 2000⟩)
        (fun _ => none) (.ok 3) 9 State.zero).1.investment =
      State.zero.investment - 100 :=
  (invest_sell_fill_negated ⟨1, "btcusdt", "sell-limit", 1/2, 100, 2000⟩
    (fun _ => none) 3 9 State.zero rfl).1 (Or.inr rfl)

/-- C6: plan construction seeds `position`/`investment` exactly to the
storage aggregate before the first flush (which rewrites only `price`,
`equity` and `updated`), and fails with no plan when the aggregate query or
the price lookup fails. -/
theorem new_seeds_state_from_aggregate
    (symbol : String) (amount : ℚ) (pos inv p : ℚ) (e : Err)
    (priceRes : Except Err ℚ) (now : ℕ) :
    (New symbol amount (.ok (pos, inv)) (.ok p) now =
      .ok { symbol := symbol, amount := amount,
            state := { position := pos, investment := inv, price := p,
                       equity := p * pos, updated := now } }) ∧
    (New symbol amount (.error e) priceRes now = .error e) ∧
    (New symbol amount (.ok (pos, inv)) (.error e) now = .error e) := by
  refine ⟨?_, ?_, ?_⟩ <;> simp [New, stateInit, stateFlush]

/-- C10: the persisted order record's price is the fill's filled quote amount
divided by its filled base amount, with no zero-divisor guard: a fill whose
filled base amount is `0` yields a non-finite price. -/
theorem order_record_price_unguarded (o : OpenOrder) :
    (mkOrderRecord o).price = divF o.fieldCashAmount o.fieldAmount ∧
    (o.fieldAmount = 0 → (mkOrderRecord o).price = none) := by
  refine ⟨rfl, fun h => ?_⟩
  simp [mkOrderRecord, divF, h]

/-- C10 witness: an unfilled fill (filled base amount `0`) produces a
non-finite recorded price. -/
theorem order_record_price_unguarded_witness :
    (mkOrderRecord ⟨1, "btcusdt", "buy-limit", 0, 0, 2000⟩).price = none :=
  (order_record_price_unguarded ⟨1, "btcusdt", "buy-limit", 0, 0, 2000⟩).2 rfl

/-- C8: `NewDaily`, `NewWeekly` and `NewMonthly` succeed exactly when the
hour is in `[0,23]` and the minute and second are in `[0,59]`. -/
theorem period_construction_ranges (hour minute second day weekday : ℕ) :
    ((NewDaily hour minute second).isOk = true ↔
      (hour ≤ 23 ∧ minute ≤ 59 ∧ second ≤ 59)) ∧
    ((NewWeekly weekday hour minute second).isOk = true ↔
      (hour ≤ 23 ∧ minute ≤ 59 ∧ second ≤ 59)) ∧
    ((NewMonthly day hour minute second).isOk = true ↔
      (hour ≤ 23 ∧ minute ≤ 59 ∧ second ≤ 59)) := by
  have hv : (validateTime hour minute second = .ok ()) ↔
      (hour ≤ 23 ∧ minute ≤ 59 ∧ second ≤ 59) := by
    simp only [validateTime, mustBetween]
    split_ifs with h1 h2 h3 <;> simp <;> omega
  refine ⟨?_, ?_, ?_⟩ <;>
    · rw [← hv]
      cases hvt : validateTime hour minute second with
      | error e => simp [NewDaily, NewWeekly, NewMonthly, hvt, Except.isOk, Except.toBool]
      | ok u => simp [NewDaily, NewWeekly, NewMonthly, hvt, Except.isOk, Except.toBool]

/-- The scan loop of `SpotAccountID` returns the id of the first account of
type `"spot"`, or `0` when there is none. -/
theorem firstSpotId_eq_find (accounts : List Account) :
    firstSpotId accounts =
      match accounts.find? (fun a => a.type == "spot") with
      | none => 0
      | some a => a.id := by
  induction accounts with
  | nil => rfl
  | cons a rest ih =>
    rw [List.find?_cons]
    by_cases h : a.type = "spot"
    · simp [firstSpotId, h]
    · have hb : (a.type == "spot") = false := by simp [h]
      simp [firstSpotId, h, hb, ih]

/-- C7 counterexample: a cached account list that does contain an account of
type `"spot"` (with id `0`) on which `SpotAccountID` nevertheless fails with
the "account not found" condition. -/
theorem spotAccountID_zero_id_counterexample :
    (Account.mk 0 "spot").type = "spot" ∧
      SpotAccountID [Account.mk 0 "spot"] = .error .accountNotFound := by
  constructor
  · rfl
  · rfl

/-- C7 (amended): `SpotAccountID` scans for the first account of type
`"spot"`; it succeeds with that account's id exactly when such an account
exists and its id is nonzero, and fails with "account not found" both when no
spot account exists and when the first spot account's id is `0`. -/
theorem spotAccountID_characterization (accounts : List Account) :
    (accounts.find? (fun a => a.type == "spot") = none →
      SpotAccountID accounts = .error .accountNotFound) ∧
    (∀ a, accounts.find? (fun a => a.type == "spot") = some a →
      SpotAccountID accounts =
        if a.id = 0 then .error .accountNotFound else .ok a.id) := by
  constructor
  · intro h
    simp [SpotAccountID, firstSpotId_eq_find, h]
  · intro a h
    by_cases hz : a.id = 0 <;>
      simp [SpotAccountID, firstSpotId_eq_find, h, hz]

/-- C7 witness: on a list whose first spot account has nonzero id `5`, the
scan succeeds and returns `5`. -/
theorem spotAccountID_characterization_witness :
    SpotAccountID [Account.mk 7 "point", Account.mk 5 "spot"] = .ok 5 := by
  have := (spotAccountID_characterization
      [Account.mk 7 "point", Account.mk 5 "spot"]).2 (Account.mk 5 "spot") rfl
  simpa using this

/-- C4: a transport attempt that fails with a retryable error (timeout as a
`net.Error`, or a "connection reset by peer" message) is retried in place at
most twice more — success on the first, second or third attempt yields the
response (with 1, 2, 3 attempts respectively); a third retryable failure is
surfaced (and, the statement being universal in `att`, the outcome never
depends on any fourth attempt); a non-retryable transport error on the first
attempt is surfaced with no retry. -/
theorem req_retry_bound {R : Type} (att : ℕ → Except TransportErr R) (r : R)
    (e0 e1 e2 : TransportErr) :
    (att 0 = .ok r → reqLoop att 0 = .ok (r, 1)) ∧
    (att 0 = .error e0 → retryable e0 = true → att 1 = .ok r →
      reqLoop att 0 = .ok (r, 2)) ∧
    (att 0 = .error e0 → retryable e0 = true → att 1 = .error e1 →
      retryable e1 = true → att 2 = .ok r → reqLoop att 0 = .ok (r, 3)) ∧
    (att 0 = .error e0 → retryable e0 = true → att 1 = .error e1 →
      retryable e1 = true → att 2 = .error e2 → retryable e2 = true →
      reqLoop att 0 = .error e2) ∧
    (att 0 = .error e0 → retryable e0 = false →
      reqLoop att 0 = .error e0) := by
  refine ⟨?_, ?_, ?_, ?_, ?_⟩
  · intro h0
    rw [reqLoop, h0]
  · intro h0 hr0 h1
    rw [reqLoop, h0]
    simp [hr0]
    rw [reqLoop, h1]
  · intro h0 hr0 h1 hr1 h2
    rw [reqLoop, h0]
    simp [hr0]
    rw [reqLoop, h1]
    simp [hr1]
    rw [reqLoop, h2]
  · intro h0 hr0 h1 hr1 h2 hr2
    rw [reqLoop, h0]
    simp [hr0]
    rw [reqLoop, h1]
    simp [hr1]
    rw [reqLoop, h2]
    simp
  · intro h0 hr0
    rw [reqLoop, h0]
    simp [hr0]

/-- C4 witness: with retryable timeouts on the first two attempts and success
on the third, the loop succeeds after exactly 3 attempts; with three
retryable timeouts it surfaces the third error; a non-retryable error is
surfaced at once. -/
theorem req_retry_bound_witness :
    (reqLoop (fun n => if n < 2 then .error ⟨true, true, false⟩ else .ok 42) 0 =
      .ok (42, 3)) ∧
    (reqLoop (fun _ => (.error ⟨true, true, false⟩ : Except TransportErr ℕ)) 0 =
      .error ⟨true, true, false⟩) ∧
    (reqLoop (fun _ => (.error ⟨true, false, false⟩ : Except TransportErr ℕ)) 0 =
      .error ⟨true, false, false⟩) :=
  ⟨(req_retry_bound (fun n => if n < 2 then .error ⟨true, true, false⟩ else .ok 42)
      42 ⟨true, true, false⟩ ⟨true, true, false⟩ ⟨true, true, false⟩).2.2.1
      rfl rfl rfl rfl rfl,
   (req_retry_bound (fun _ => (.error ⟨true, true, false⟩ : Except TransportErr ℕ))
      42 ⟨true, true, false⟩ ⟨true, true, false⟩ ⟨true, true, false⟩).2.2.2.1
      rfl rfl rfl rfl rfl rfl,
   (req_retry_bound (fun _ => (.error ⟨true, false, false⟩ : Except TransportErr ℕ))
      42 ⟨true, false, false⟩ ⟨true, false, false⟩ ⟨true, false, false⟩).2.2.2.2
      rfl rfl⟩

/-- A decimal digit character is never the decimal point. -/
theorem digitChar_ne_dot (d : ℕ) (hd : d < 10) : digitChar d ≠ '.' := by
  interval_cases d <;> decide

/-- `natCharsAux` only emits digit characters, never a decimal point. -/
theorem natCharsAux_no_dot (fuel n : ℕ) : '.' ∉ natCharsAux fuel n := by
  induction fuel generalizing n with
  | zero => simp [natCharsAux]
  | succ fuel ih =>
    by_cases h : n = 0
    · simp [natCharsAux, h]
    · simp only [natCharsAux, if_neg h, List.mem_append, List.mem_singleton]
      rintro (hmem | hdot)
      · exact ih (n / 10) hmem
      · exact digitChar_ne_dot (n % 10) (Nat.mod_lt n (by omega)) hdot.symm

/-- `natChars` only emits digit characters, never a decimal point. -/
theorem natChars_no_dot (n : ℕ) : '.' ∉ natChars n := by
  by_cases h : n = 0
  · simp [natChars, h]
  · simp only [natChars, if_neg h]
    exact natCharsAux_no_dot n n

/-- At precision `0` the fixed-point rendering carries no decimal point. -/
theorem formatFixedChars_zero_prec (n : ℤ) : '.' ∉ formatFixedChars n 0 := by
  have hfrac : stripTrailingZeros
      (List.replicate (0 - (natChars (n.natAbs % 10 ^ 0)).length) '0' ++
        natChars (n.natAbs % 10 ^ 0)) = [] := by
    simp [pow_zero, Nat.mod_one, natChars, stripTrailingZeros]
  simp only [formatFixedChars, hfrac, if_pos rfl]
  intro hmem
  rcases List.mem_append.mp hmem with hsign | hint
  · by_cases hneg : n < 0 <;> simp [hneg] at hsign
  · exact natChars_no_dot _ hint

/-- C5: the numeric formatter of `Trade` truncates — never rounds up — to the
given decimal precision (`floorVal f p ≤ f`); formatting `0.123456` at
precision 4 yields `"0.1234"`; formatting at precision `0` yields a string
with no decimal point; and in the order parameter set the amount is always
formatted at the symbol's amount precision while the price is formatted (at
the symbol's price precision) exactly for the limit kinds. -/
theorem floor_truncates_trade_precision (f : ℚ) (p : ℕ) (s : Symbol)
    (accountId : ℕ) (cmd : TradeType) (amount price : ℚ) :
    floorVal f p ≤ f ∧
    floor (123456 / 1000000 : ℚ) 4 = "0.1234" ∧
    '.' ∉ (floor f 0).data ∧
    ((tradeParams s accountId cmd amount price).lookup "amount" =
      some (floor amount s.amountPrecision)) ∧
    ((tradeParams s accountId cmd amount price).lookup "price" =
      if cmd = .buyLimit ∨ cmd = .sellLimit then
        some (floor price s.pricePrecision) else none) := by
  refine ⟨?_, ?_, ?_, ?_, ?_⟩
  · have hp : (0 : ℚ) < 10 ^ p := by positivity
    have h1 : ((⌊f * 10 ^ p⌋ : ℤ) : ℚ) ≤ f * 10 ^ p := Int.floor_le _
    have h2 : ((⌊f * 10 ^ p⌋ : ℤ) : ℚ) / 10 ^ p ≤ f * 10 ^ p / 10 ^ p :=
      (div_le_div_iff_of_pos_right hp).mpr h1
    rw [mul_div_cancel_right₀ f (ne_of_gt hp)] at h2
    exact h2
  · norm_num [floor]
    decide
  · show '.' ∉ (String.mk (formatFixedChars ⌊f * 10 ^ 0⌋ 0)).data
    exact formatFixedChars_zero_prec _
  · cases cmd <;> rfl
  · cases cmd <;> rfl

/-- C5 witness: concrete instances of truncation and of the precision-0
integer rendering. -/
theorem floor_truncates_trade_precision_witness :
    floorVal (5 / 2 : ℚ) 0 ≤ 5 / 2 ∧ '.' ∉ (floor (5 / 2 : ℚ) 0).data ∧
      (tradeParams ⟨"btcusdt", 2, 4⟩ 11 .buyLimit (123456 / 1000000) 3).lookup
          "price" =
        if (TradeType.buyLimit = .buyLimit ∨ TradeType.buyLimit = .sellLimit)
        then some (floor (3 : ℚ) 2) else none :=
  ⟨(floor_truncates_trade_precision (5 / 2) 0 ⟨"btcusdt", 2, 4⟩ 11 .buyLimit
      (123456 / 1000000) 3).1,
   (floor_truncates_trade_precision (5 / 2) 0 ⟨"btcusdt", 2, 4⟩ 11 .buyLimit
      (123456 / 1000000) 3).2.2.1,
   (floor_truncates_trade_precision (5 / 2) 0 ⟨"btcusdt", 2, 4⟩ 11 .buyLimit
      (123456 / 1000000) 3).2.2.2.2⟩

set_option maxRecDepth 40000 in
set_option maxHeartbeats 4000000 in
/-- C9: the canonical query string is the parameter set sorted
lexicographically by key, each key and value URL-escaped, joined with `&`;
the signature is deterministic in the
`(method, host, path, canonical query, secret)` tuple (it is the Base64-coded
HMAC-SHA256, keyed by the secret, of `METHOD\nHOST\nPATH\nCANONICAL_QUERY`);
and changing any one of the five inputs changes the signature, witnessed at a
concrete tuple for each input (by the pigeonhole principle no 256-bit MAC is
literally injective on unbounded inputs, so input-sensitivity is established
pointwise). -/
theorem sign_canonical_query_determinism_sensitivity
    (ps : List (String × String)) (m h p q secret secret' : String)
    (hsec : secret = secret') :
    (∃ ks : List String, ks.Perm (ps.map Prod.fst) ∧
      ks.Sorted (· ≤ ·) ∧
      querystring ps = String.intercalate "&"
        (ks.map fun k =>
          queryEscape k ++ "=" ++ queryEscape ((ps.lookup k).getD ""))) ∧
    sign secret (signPayload m h p q) = sign secret' (signPayload m h p q) ∧
    sign "k" (signPayload "GET" "h" "/p" "a=1") ≠
      sign "k" (signPayload "POST" "h" "/p" "a=1") ∧
    sign "k" (signPayload "GET" "h" "/p" "a=1") ≠
      sign "k" (signPayload "GET" "i" "/p" "a=1") ∧
    sign "k" (signPayload "GET" "h" "/p" "a=1") ≠
      sign "k" (signPayload "GET" "h" "/q" "a=1") ∧
    sign "k" (signPayload "GET" "h" "/p" "a=1") ≠
      sign "k" (signPayload "GET" "h" "/p" "a=2") ∧
    sign "k" (signPayload "GET" "h" "/p" "a=1") ≠
      sign "j" (signPayload "GET" "h" "/p" "a=1") := by
  refine ⟨⟨(ps.map Prod.fst).insertionSort (· ≤ ·),
      List.perm_insertionSort _ _, List.sorted_insertionSort _ _, rfl⟩,
    by rw [hsec], ?_, ?_, ?_, ?_, ?_⟩ <;> decide

/-- C9 witness: determinism at a concrete tuple — two signings of the same
inputs agree. -/
theorem sign_canonical_query_determinism_sensitivity_witness :
    sign "k" (signPayload "GET" "h" "/p" "a=1") =
      sign "k" (signPayload "GET" "h" "/p" "a=1") :=
  (sign_canonical_query_determinism_sensitivity [("a", "1")]
    "GET" "h" "/p" "a=1" "k" "k" rfl).2.1

end Aip
